import Mathlib

/-!
Verification of the document indexing & retrieval engine of
`streamlit_origin_agent-3.py` (Origin Software Agent).

Texts are modelled as `List Char`; Python `str.strip()` as removal of
leading/trailing whitespace characters; machine time (`datetime.utcnow()`)
as a `Nat` number of seconds passed in explicitly; the SHA-256 password
hash as an abstract function parameter (the program only compares hash
values for equality); the SQLite FTS5 engine (its `MATCH` predicate and
`bm25` ranking function) as abstract oracle parameters, with `ORDER BY`
/ `LIMIT` embedded as sorting and truncation; the boto3 S3 client and
the filesystem as oracle parameters of the backup functions.
-/

namespace StreamlitOrigin

/-! ## Chunker (`split_text`, source lines 601-613) -/

/-- Python `s.strip()`: drop leading and trailing whitespace. -/
def pyStrip (s : List Char) : List Char :=
  ((s.dropWhile Char.isWhitespace).reverse.dropWhile Char.isWhitespace).reverse

/-- The `while start < n` loop of `split_text`, with explicit fuel
(the Python loop does not terminate for every parameter choice).
Each iteration appends the window `text[start : min(n, start+size)]`,
sets `start = end - overlap` (clamped at 0, which is what truncated
`Nat` subtraction does), and breaks when `end == n`. -/
def splitLoop (text : List Char) (size overlap : Nat) : Nat → Nat → Option (List (List Char))
  | 0, _ => none
  | fuel+1, start =>
    if start < text.length then
      let e := min text.length (start + size)
      let w := (text.drop start).take (e - start)
      if e = text.length then
        some [w]
      else
        (splitLoop text size overlap fuel (e - overlap)).map (fun ws => w :: ws)
    else
      some []

/-- The raw windows produced by `split_text` before trimming/filtering;
`text.length + 1` fuel is enough whenever `overlap < size`. -/
def splitWindows (text : List Char) (size overlap : Nat) : Option (List (List Char)) :=
  splitLoop text size overlap (text.length + 1) 0

/-- The raw window list, defaulting to `[]` when the loop would diverge. -/
def rawWindows (text : List Char) (size overlap : Nat) : List (List Char) :=
  (splitWindows text size overlap).getD []

/-- `split_text(text, size, overlap)`: the raw windows, then
`[p.strip() for p in parts if p.strip()]`. -/
def split_text (text : List Char) (size overlap : Nat) : List (List Char) :=
  match splitWindows text size overlap with
  | some parts => (parts.map pyStrip).filter (fun p => ¬ p.isEmpty)
  | none => []

/-- Concatenation of each chunk's non-overlapping leading portion:
all but the final `overlap` characters of every chunk except the last,
which is kept whole. -/
def leadConcat (overlap : Nat) : List (List Char) → List Char
  | [] => []
  | [w] => w
  | w :: ws => w.take (w.length - overlap) ++ leadConcat overlap ws

/-- `CHUNK_SIZE` (source line 27). -/
def CHUNK_SIZE : Nat := 1200

/-- `CHUNK_OVERLAP` (source line 28). -/
def CHUNK_OVERLAP : Nat := 150

/-! ## Document store (`index_folder`, source lines 624-661) -/

/-- A row of the `documents` table. -/
structure Document where
  id : Nat
  filename : String
  path : String
  nPages : Nat
  addedAt : Nat
deriving DecidableEq

/-- A row of the `chunks` table. -/
structure Chunk where
  id : Nat
  documentId : Nat
  chunkIndex : Nat
  text : List Char
deriving DecidableEq

/-- The `documents.db` state relevant to ingestion and search.
Row ids are modelled as consecutive integers handed out by the store. -/
structure DocDB where
  documents : List Document
  chunks : List Chunk
  nextDocId : Nat
  nextChunkId : Nat
deriving DecidableEq

/-- A PDF file found under the folder, together with the result of the
injected extraction collaborator `extract_text_from_pdf` on it
(extraction is a pure function of the file, so it is carried as data). -/
structure PdfFile where
  path : String
  filename : String
  text : List Char
  nPages : Nat
deriving DecidableEq

/-- Body of the per-file part of `index_folder`: skip when the path is
already present, skip when the extracted text strips to empty, otherwise
insert one document row and one chunk row per `split_text` output. -/
def indexFile (now : Nat) (db : DocDB) (f : PdfFile) : DocDB × Nat × Nat :=
  if db.documents.any (fun d => d.path = f.path) then (db, 0, 0)
  else if (pyStrip f.text).isEmpty then (db, 0, 0)
  else
    let doc : Document := ⟨db.nextDocId, f.filename, f.path, f.nPages, now⟩
    let parts := split_text f.text CHUNK_SIZE CHUNK_OVERLAP
    let rows := parts.enum.map (fun p => Chunk.mk (db.nextChunkId + p.1) doc.id p.1 p.2)
    (⟨db.documents ++ [doc], db.chunks ++ rows,
      db.nextDocId + 1, db.nextChunkId + parts.length⟩, 1, parts.length)

/-- The `for path in pdf_files` loop of `index_folder`, carrying the
`new_docs` and `new_chunks` counters. -/
def indexFolderLoop (now : Nat) : DocDB → Nat → Nat → List PdfFile → DocDB × Nat × Nat
  | db, d, c, [] => (db, d, c)
  | db, d, c, f :: fs =>
    let r := indexFile now db f
    indexFolderLoop now r.1 (d + r.2.1) (c + r.2.2) fs

/-- `index_folder(folder)`: returns `(0,0)` when the folder is not a
directory, otherwise runs the per-file loop starting from zero counters.
The trailing `backup_to_r2()` call touches no table. -/
def index_folder (isDir : Bool) (now : Nat) (db : DocDB) (files : List PdfFile) :
    DocDB × Nat × Nat :=
  if isDir = false then (db, 0, 0)
  else indexFolderLoop now db 0 0 files

/-! ## Search index (`search_chunks`, source lines 663-690) -/

/-- One row returned by `search_chunks`:
`(c.text, c.document_id, d.filename, score)`. The BM25 cost is carried
as an `Int` supplied by the abstract ranking oracle. -/
structure SearchRow where
  text : List Char
  documentId : Nat
  filename : String
  score : Int
deriving DecidableEq

/-- Insertion into a score-sorted list (embedding of `ORDER BY`): keeps
rows in non-decreasing score order. -/
def insertByScore (r : SearchRow) : List SearchRow → List SearchRow
  | [] => [r]
  | x :: xs => if r.score ≤ x.score then r :: x :: xs else x :: insertByScore r xs

/-- Sort rows by non-decreasing score (embedding of
`ORDER BY bm25(chunks_fts)`; SQLite leaves tie order unspecified, any
stable order refines it). -/
def sortByScore (l : List SearchRow) : List SearchRow :=
  l.foldr insertByScore []

/-- The `chunks_fts` virtual table content: `(rowid, text)` pairs. -/
def FtsIndex : Type := List (Nat × List Char)

/-- The ranked query of `search_chunks`: join `chunks_fts` rows with
`chunks` and `documents`, keep the rows the engine MATCHes, order by the
engine's `bm25` cost ascending, and truncate at `top_k`. `matchQ` and
`rank` are the abstract FTS5 oracles (query, indexed text). -/
def primaryRows (db : DocDB) (fts : FtsIndex)
    (matchQ : List Char → List Char → Bool) (rank : List Char → List Char → Int)
    (q : List Char) (topK : Nat) : List SearchRow :=
  let joined := fts.filterMap (fun e =>
    match db.chunks.find? (fun c => c.id = e.1) with
    | none => none
    | some c =>
      match db.documents.find? (fun d => d.id = c.documentId) with
      | none => none
      | some d =>
        if matchQ q e.2 then some (SearchRow.mk c.text c.documentId d.filename (rank q e.2))
        else none)
  (sortByScore joined).take topK

/-- ASCII lowercase folding, as SQLite's default `LIKE` performs. -/
def asciiLower (c : Char) : Char :=
  if 'A' ≤ c ∧ c ≤ 'Z' then Char.ofNat (c.toNat + 32) else c

/-- The `c.text LIKE '%query%'` predicate of the fallback query, for
queries without further wildcard characters: ASCII-case-insensitive
substring containment. -/
def likeContains (q text : List Char) : Bool :=
  decide ((q.map asciiLower) <:+: (text.map asciiLower))

/-- The fallback query of `search_chunks`: substring filter over the
`chunks`/`documents` join, fixed score `0.0`, capped at `top_k`. -/
def fallbackRows (db : DocDB) (q : List Char) (topK : Nat) : List SearchRow :=
  (((db.chunks.filterMap (fun c =>
      (db.documents.find? (fun d => d.id = c.documentId)).map (fun d => (c, d)))).filter
    (fun cd => likeContains q cd.1.text)).map
    (fun cd => SearchRow.mk cd.1.text cd.1.documentId cd.2.filename 0)).take topK

/-- `search_chunks(query, top_k)`. `ftsAvailable` is whether the ranked
query runs without `sqlite3.OperationalError` (FTS5 present); when it
runs, its rows are returned only if nonempty (`if rows: return rows`),
otherwise control falls through to the fallback query. -/
def search_chunks (db : DocDB) (fts : FtsIndex)
    (matchQ : List Char → List Char → Bool) (rank : List Char → List Char → Int)
    (ftsAvailable : Bool) (query : List Char) (topK : Nat) : List SearchRow :=
  let q := pyStrip query
  if q.isEmpty then []
  else if ftsAvailable then
    let rows := primaryRows db fts matchQ rank q topK
    if rows.isEmpty then fallbackRows db q topK else rows
  else fallbackRows db q topK

/-! ## Credential store (source lines 231-347) -/

/-- A row of the `users` table. -/
structure UserRec where
  id : Nat
  username : String
  passwordHash : String
  email : String
  createdAt : Nat
  lastLogin : Option Nat
  active : Bool
  subscriptionExpires : Option Nat
deriving DecidableEq

/-- The `st.error` message emitted for a deactivated account. -/
def inactiveMsg : String := "Usuário desativado. Entre em contato com o suporte."

/-- The `st.error` message emitted for an expired subscription. -/
def expiredMsg : String := "Assinatura expirada. Renove seu acesso."

/-- The `UPDATE users SET last_login = ? WHERE username = ?` statement. -/
def touchLastLogin (db : List UserRec) (username : String) (now : Nat) : List UserRec :=
  db.map (fun u =>
    if u.username = username then { u with lastLogin := some now } else u)

/-- `validate_user(username, password)`. `hash` is the abstract
`hash_password` (SHA-256); `now` is `datetime.utcnow()` in seconds.
Returns the boolean result, the `st.error` messages emitted, and the
user table afterwards. Empty username or password short-circuits before
the database is opened. -/
def validate_user (hash : String → String) (now : Nat) (db : List UserRec)
    (username password : String) : Bool × List String × List UserRec :=
  if username = "" ∨ password = "" then (false, [], db)
  else
    match db.find? (fun u => u.username = username) with
    | none => (false, [], db)
    | some u =>
      if hash password ≠ u.passwordHash then (false, [], db)
      else if u.active = false then (false, [inactiveMsg], db)
      else
        match u.subscriptionExpires with
        | some e =>
          if now > e then (false, [expiredMsg], db)
          else (true, [], touchLastLogin db username now)
        | none => (true, [], touchLastLogin db username now)

/-- Seconds per day, for `timedelta(days=...)`. -/
def secondsPerDay : Nat := 86400

/-- `add_user(username, password, email, months)`. `sessionUsername` is
`st.session_state.username` (`none` when the key is absent). A duplicate
username raises `sqlite3.IntegrityError` via the UNIQUE constraint and
is reported as `False` with no row inserted; otherwise the row is
inserted with `active=1` and expiry `now + timedelta(days=30*months)`.
The fresh rowid is modelled as one past the current row count. -/
def add_user (hash : String → String) (now : Nat) (sessionUsername : Option String)
    (db : List UserRec) (username password email : String) (months : Nat) :
    Bool × List UserRec :=
  if sessionUsername ≠ some "admin" then (false, db)
  else if (db.find? (fun u => u.username = username)).isSome then (false, db)
  else
    (true, db ++ [⟨db.length + 1, username, hash password, email, now, none, true,
      some (now + 30 * months * secondsPerDay)⟩])

/-! ## Backup sync (R2, source lines 46-193) -/

/-- The configuration assembled by `get_r2_config`. -/
structure R2Config where
  endpoint : String
  bucket : String
  accessKey : String
  secretKey : String
  region : String
deriving DecidableEq

/-- One required field as resolved by `get_r2_config`: the value from
`st.secrets` (a lookup function when `st.secrets` is usable, `""` for an
absent key) and, when that is empty, the process environment. -/
def resolveField (secrets : Option (String → String)) (env : String → String)
    (key : String) : String :=
  let s := match secrets with
    | some f => f key
    | none => ""
  if s = "" then env key else s

/-- The region field: both lookups carry the default `"auto"`. -/
def resolveRegion (secrets : Option (String → String)) (env : String → String) : String :=
  let s := match secrets with
    | some f => if f "S3_REGION" = "" then "auto" else f "S3_REGION"
    | none => ""
  if s = "" then (if env "S3_REGION" = "" then "auto" else env "S3_REGION") else s

/-- `get_r2_config()`: `None` when boto3 is missing or any of the four
required fields resolves to an empty value. -/
def get_r2_config (hasS3 : Bool) (secrets : Option (String → String))
    (env : String → String) : Option R2Config :=
  if hasS3 = false then none
  else
    let endpoint := resolveField secrets env "S3_ENDPOINT_URL"
    let bucket := resolveField secrets env "S3_BUCKET"
    let accessKey := resolveField secrets env "AWS_ACCESS_KEY_ID"
    let secretKey := resolveField secrets env "AWS_SECRET_ACCESS_KEY"
    if endpoint = "" ∨ bucket = "" ∨ accessKey = "" ∨ secretKey = "" then none
    else some ⟨endpoint, bucket, accessKey, secretKey, resolveRegion secrets env⟩

/-- The handle `get_r2_client` returns: the boto3 client (abstracted to
an id issued by the connection oracle), the bucket, and the fixed key
namespace `"origin-agent/"`. -/
structure R2Handle where
  clientId : Nat
  bucket : String
  keyNamespace : String
deriving DecidableEq

/-- `get_r2_client()`: `None` without a complete configuration;
otherwise client construction and the `head_bucket`/`create_bucket`
probe are abstracted into the `connect` oracle, whose `none` outcome is
the code's `return None` on connection failure. -/
def get_r2_client (hasS3 : Bool) (secrets : Option (String → String))
    (env : String → String) (connect : R2Config → Option Nat) : Option R2Handle :=
  if hasS3 = false then none
  else
    match get_r2_config hasS3 secrets env with
    | none => none
    | some cfg =>
      match connect cfg with
      | none => none
      | some c => some ⟨c, cfg.bucket, "origin-agent/"⟩

/-- The three database files in the order `backup_to_r2` and
`restore_from_r2` iterate them, as `(local path, basename)`. -/
def dbFiles : List (String × String) :=
  [("data/users.db", "users.db"), ("data/documents.db", "documents.db"),
   ("data/chat.db", "chat.db")]

/-- The object transfers `backup_to_r2()` performs: one upload per
locally existing database file, to `prefix + basename`; none at all
without a client. -/
def backup_to_r2 (hasS3 : Bool) (secrets : Option (String → String))
    (env : String → String) (connect : R2Config → Option Nat)
    (existsLocal : String → Bool) : List (String × String) :=
  match get_r2_client hasS3 secrets env connect with
  | none => []
  | some r2 =>
    (dbFiles.filter (fun f => existsLocal f.1)).map
      (fun f => (f.1, r2.keyNamespace ++ f.2))

/-- The object transfers `restore_from_r2()` performs: one download per
locally missing database file whose remote object exists; none at all
without a client. -/
def restore_from_r2 (hasS3 : Bool) (secrets : Option (String → String))
    (env : String → String) (connect : R2Config → Option Nat)
    (existsLocal : String → Bool) (remoteHas : String → Bool) :
    List (String × String) :=
  match get_r2_client hasS3 secrets env connect with
  | none => []
  | some r2 =>
    ((dbFiles.filter (fun f => !existsLocal f.1)).filter
      (fun f => remoteHas (r2.keyNamespace ++ f.2))).map
      (fun f => (r2.keyNamespace ++ f.2, f.1))

/-- `sync_user_data()`: `backup_to_r2()` when a client is obtainable,
otherwise nothing. -/
def sync_user_data (hasS3 : Bool) (secrets : Option (String → String))
    (env : String → String) (connect : R2Config → Option Nat)
    (existsLocal : String → Bool) : List (String × String) :=
  if (get_r2_client hasS3 secrets env connect).isSome then
    backup_to_r2 hasS3 secrets env connect existsLocal
  else []

/-! ## Concrete fixtures used by witnesses and counterexamples -/

/-- A stand-in for the injected password hash (the program only ever
compares hash values for equality). -/
def exHash (s : String) : String := s ++ "#"

/-- A one-account user table: alice, active, expiring at time 1000. -/
def exUserDb : List UserRec :=
  [⟨1, "alice", exHash "pw", "a@x.com", 0, none, true, some 1000⟩]

/-- A one-document, one-chunk corpus. -/
def exDocDb : DocDB :=
  ⟨[⟨1, "m.pdf", "docs/origin/m.pdf", 2, 0⟩],
   [⟨1, 1, 0, ('h' :: 'e' :: 'l' :: 'l' :: 'o' :: [])⟩], 2, 2⟩

/-- The FTS side of `exDocDb`. -/
def exFts : FtsIndex := [(1, ('h' :: 'e' :: 'l' :: 'l' :: 'o' :: []))]

/-! ## Chunker lemmas -/

theorem pyStrip_length_le (s : List Char) : (pyStrip s).length ≤ s.length := by
  unfold pyStrip
  calc ((s.dropWhile Char.isWhitespace).reverse.dropWhile Char.isWhitespace).reverse.length
      = ((s.dropWhile Char.isWhitespace).reverse.dropWhile Char.isWhitespace).length := by
        rw [List.length_reverse]
    _ ≤ (s.dropWhile Char.isWhitespace).reverse.length :=
        (List.dropWhile_sublist _).length_le
    _ = (s.dropWhile Char.isWhitespace).length := by rw [List.length_reverse]
    _ ≤ s.length := (List.dropWhile_sublist _).length_le

/-- Main loop invariant: with `overlap < size` and enough fuel, the loop
returns, the windows tile the remaining text, the window list is nonempty
when text remains, and every window has length at most `size`. -/
theorem splitLoop_spec (text : List Char) (size overlap : Nat) (hso : overlap < size) :
    ∀ fuel start, text.length - start < fuel →
      ∃ ws, splitLoop text size overlap fuel start = some ws ∧
        leadConcat overlap ws = text.drop start ∧
        (start < text.length → ws ≠ []) ∧
        (∀ w ∈ ws, w.length ≤ size) := by
  intro fuel
  induction fuel with
  | zero => intro start h; omega
  | succ f ih =>
    intro start h
    by_cases hs : start < text.length
    · set e := min text.length (start + size) with he
      set w := (text.drop start).take (e - start) with hw
      by_cases hend : e = text.length
      · refine ⟨[w], ?_, ?_, fun _ => by simp, ?_⟩
        · simp only [splitLoop, if_pos hs, ← he, ← hw, if_pos hend]
        · show w = text.drop start
          rw [hw, hend]
          exact List.take_of_length_le (by simp)
        · intro x hx
          simp only [List.mem_singleton] at hx
          subst hx
          rw [hw]
          have hes : e - start ≤ size := by omega
          calc ((text.drop start).take (e - start)).length ≤ e - start := by
                simp [List.length_take]
            _ ≤ size := hes
      · -- continue: here e = start + size < text.length
        have hlt : start + size < text.length := by
          rcases Nat.lt_or_ge (start + size) text.length with h1 | h1
          · exact h1
          · exact absurd (by omega : e = text.length) hend
        have heq : e = start + size := by omega
        have hstep : e - overlap = start + (size - overlap) := by omega
        have hfuel : text.length - (start + (size - overlap)) < f := by omega
        obtain ⟨ws, hws, hcat, hne, hlen⟩ := ih (start + (size - overlap)) hfuel
        refine ⟨w :: ws, ?_, ?_, fun _ => by simp, ?_⟩
        · simp only [splitLoop, if_pos hs, ← he, ← hw, if_neg hend, hstep, hws]
          rfl
        · have hwsne : ws ≠ [] := hne (by omega)
          have hwlen : w.length = size := by
            rw [hw, List.length_take, List.length_drop]
            omega
          obtain ⟨y, ys, rfl⟩ := List.exists_cons_of_ne_nil hwsne
          show w.take (w.length - overlap) ++ leadConcat overlap (y :: ys) = text.drop start
          rw [hcat, hwlen, hw, heq]
          have h1 : start + size - start = size := by omega
          rw [h1, List.take_take, Nat.min_def, if_pos (by omega : size - overlap ≤ size)]
          have h2 : text.drop (start + (size - overlap)) =
              (text.drop start).drop (size - overlap) := by
            rw [List.drop_drop, Nat.add_comm]
          rw [h2, List.take_append_drop]
        · intro x hx
          rcases List.mem_cons.mp hx with rfl | hx
          · rw [hw, List.length_take]; omega
          · exact hlen x hx
    · refine ⟨[], by simp [splitLoop, hs], ?_, fun hc => absurd hc hs, by simp⟩
      have hn : text.length ≤ start := Nat.le_of_not_lt hs
      show ([] : List Char) = text.drop start
      exact (List.drop_eq_nil_of_le hn).symm

/-- More fuel never changes a successful run of the loop. -/
theorem splitLoop_le (text : List Char) (size overlap : Nat) :
    ∀ fuel fuel' start ws, fuel ≤ fuel' →
      splitLoop text size overlap fuel start = some ws →
      splitLoop text size overlap fuel' start = some ws := by
  intro fuel
  induction fuel with
  | zero => intro fuel' start ws _ h; simp [splitLoop] at h
  | succ f ih =>
    intro fuel' start ws hle h
    obtain ⟨f', rfl⟩ : ∃ f', fuel' = f' + 1 := ⟨fuel' - 1, by omega⟩
    have hff : f ≤ f' := by omega
    by_cases hs : start < text.length
    · simp only [splitLoop, if_pos hs] at h ⊢
      by_cases hend : min text.length (start + size) = text.length
      · simpa [hend] using h
      · simp only [if_neg hend] at h ⊢
        rcases hrec : splitLoop text size overlap f (min text.length (start + size) - overlap)
          with _ | ws'
        · rw [hrec] at h; simp at h
        · rw [hrec] at h
          rw [ih f' _ _ hff hrec]
          exact h
    · simpa [splitLoop, hs] using h

/-! ## C1 -/

/-- C1, counterexample: the claim as stated fails on the code. For
`T = "a b"`, `size = 1`, `overlap = 0` (a valid pair, `1 > 0 ≥ 0`), the
whitespace-only middle window is dropped and the returned chunks are
`["a", "b"]`, whose leading portions concatenate to `"ab" ≠ T`. -/
theorem split_text_not_lossless_after_trim :
    (0:Nat) < 1 ∧
    leadConcat 0 (split_text ('a' :: ' ' :: 'b' :: []) 1 0) ≠ ('a' :: ' ' :: 'b' :: []) := by
  decide

/-- C1, amended: for every text and `size > overlap ≥ 0` the loop
returns, concatenating each raw window's non-overlapping leading portion
(before the whitespace trim/drop post-filter) reconstructs the text
losslessly, and every returned chunk of `split_text` has length at most
`size`. -/
theorem split_text_cover_and_bound (text : List Char) (size overlap : Nat)
    (h : overlap < size) :
    (splitWindows text size overlap).isSome = true ∧
    leadConcat overlap (rawWindows text size overlap) = text ∧
    ∀ c ∈ split_text text size overlap, c.length ≤ size := by
  obtain ⟨ws, hws, hcat, -, hlen⟩ :=
    splitLoop_spec text size overlap h (text.length + 1) 0 (by omega)
  have hw : splitWindows text size overlap = some ws := hws
  refine ⟨by rw [hw]; rfl, ?_, ?_⟩
  · rw [rawWindows, hw]
    simpa using hcat
  · intro c hc
    simp only [split_text, hw] at hc
    obtain ⟨hmem, -⟩ := List.mem_filter.mp hc
    obtain ⟨x, hx, rfl⟩ := List.mem_map.mp hmem
    exact (pyStrip_length_le x).trans (hlen x hx)

/-- C1 witness: the amended theorem applied to `T = "ab cd"`,
`size = 3`, `overlap = 1`. -/
theorem split_text_cover_and_bound_witness :
    (1:Nat) < 3 ∧
    leadConcat 1 (rawWindows ('a' :: 'b' :: ' ' :: 'c' :: 'd' :: []) 3 1) =
      ('a' :: 'b' :: ' ' :: 'c' :: 'd' :: []) :=
  ⟨by decide, (split_text_cover_and_bound ('a' :: 'b' :: ' ' :: 'c' :: 'd' :: []) 3 1
    (by decide)).2.1⟩

/-! ## C5 -/

/-- C5: when `size > overlap ≥ 0` the window loop terminates: with any
fuel beyond the text length the loop yields the same final window list,
so `split_text` is a total function of its inputs under that
precondition (each window being `[start, min(len, start+size))` and the
next start `end - overlap` clamped at 0 is how `splitLoop` is defined). -/
theorem splitLoop_terminates (text : List Char) (size overlap : Nat)
    (h : overlap < size) :
    (splitWindows text size overlap).isSome = true ∧
    ∀ fuel, text.length < fuel →
      splitLoop text size overlap fuel 0 = splitWindows text size overlap := by
  obtain ⟨ws, hws, -, -, -⟩ :=
    splitLoop_spec text size overlap h (text.length + 1) 0 (by omega)
  refine ⟨?_, ?_⟩
  · rw [splitWindows, hws]; rfl
  · intro fuel hf
    have hres : splitLoop text size overlap fuel 0 = some ws :=
      splitLoop_le text size overlap (text.length + 1) fuel 0 ws (by omega) hws
    rw [hres, splitWindows, hws]

/-- C5 witness: termination on `T = "abc"`, `size = 1`, `overlap = 0`,
and fuel-independence at fuel 20. -/
theorem splitLoop_terminates_witness :
    (0:Nat) < 1 ∧
    (splitWindows ('a' :: 'b' :: 'c' :: []) 1 0).isSome = true ∧
    splitLoop ('a' :: 'b' :: 'c' :: []) 1 0 20 0 =
      splitWindows ('a' :: 'b' :: 'c' :: []) 1 0 :=
  ⟨by decide, (splitLoop_terminates ('a' :: 'b' :: 'c' :: []) 1 0 (by decide)).1,
    (splitLoop_terminates ('a' :: 'b' :: 'c' :: []) 1 0 (by decide)).2 20 (by decide)⟩

/-! ## C2 -/

/-- C2: re-running folder ingestion when every listed PDF path already
has a document row adds zero documents and zero chunks and leaves the
store untouched: known paths are skipped before extraction or chunking. -/
theorem index_folder_idempotent (isDir : Bool) (now : Nat) (db : DocDB)
    (files : List PdfFile)
    (h : ∀ f ∈ files, ∃ d ∈ db.documents, d.path = f.path) :
    index_folder isDir now db files = (db, 0, 0) := by
  cases isDir with
  | false => rfl
  | true =>
    show indexFolderLoop now db 0 0 files = (db, 0, 0)
    induction files with
    | nil => rfl
    | cons f fs ih =>
      have hskip : indexFile now db f = (db, 0, 0) := by
        have hany : db.documents.any (fun d => d.path = f.path) = true := by
          rw [List.any_eq_true]
          obtain ⟨d, hd, hpath⟩ := h f (List.mem_cons_self f fs)
          exact ⟨d, hd, by simp [hpath]⟩
        simp [indexFile, hany]
      show indexFolderLoop now (indexFile now db f).1
        (0 + (indexFile now db f).2.1) (0 + (indexFile now db f).2.2) fs = (db, 0, 0)
      rw [hskip]
      exact ih (fun g hg => h g (List.mem_cons_of_mem f hg))

/-- C2 witness: re-ingesting the one-file folder backing `exDocDb`. -/
theorem index_folder_idempotent_witness :
    index_folder true 7 exDocDb
      [⟨"docs/origin/m.pdf", "m.pdf", ('h' :: 'i' :: []), 2⟩] = (exDocDb, 0, 0) :=
  index_folder_idempotent true 7 exDocDb
    [⟨"docs/origin/m.pdf", "m.pdf", ('h' :: 'i' :: []), 2⟩] (by decide)

/-! ## Search lemmas -/

theorem mem_insertByScore (x r : SearchRow) :
    ∀ l, x ∈ insertByScore r l ↔ x = r ∨ x ∈ l := by
  intro l
  induction l with
  | nil => simp [insertByScore]
  | cons y ys ih =>
    by_cases hle : r.score ≤ y.score
    · simp only [insertByScore, if_pos hle, List.mem_cons]
    · simp only [insertByScore, if_neg hle, List.mem_cons, ih]
      tauto

theorem insertByScore_pairwise (r : SearchRow) :
    ∀ l, l.Pairwise (fun a b => a.score ≤ b.score) →
      (insertByScore r l).Pairwise (fun a b => a.score ≤ b.score) := by
  intro l
  induction l with
  | nil => intro _; simp [insertByScore]
  | cons y ys ih =>
    intro hp
    rw [List.pairwise_cons] at hp
    obtain ⟨hy, hys⟩ := hp
    by_cases hle : r.score ≤ y.score
    · rw [insertByScore, if_pos hle, List.pairwise_cons]
      refine ⟨?_, List.pairwise_cons.mpr ⟨hy, hys⟩⟩
      intro b hb
      rcases List.mem_cons.mp hb with rfl | hb
      · exact hle
      · exact hle.trans (hy b hb)
    · rw [insertByScore, if_neg hle, List.pairwise_cons]
      refine ⟨?_, ih hys⟩
      intro b hb
      rcases (mem_insertByScore b r ys).mp hb with rfl | hb
      · exact le_of_lt (lt_of_not_ge hle)
      · exact hy b hb

theorem sortByScore_pairwise (l : List SearchRow) :
    (sortByScore l).Pairwise (fun a b => a.score ≤ b.score) := by
  induction l with
  | nil => simp [sortByScore]
  | cons x xs ih => exact insertByScore_pairwise x (sortByScore xs) ih

theorem pairwise_le_of_all_zero (l : List SearchRow) (h : ∀ r ∈ l, r.score = 0) :
    l.Pairwise (fun a b => a.score ≤ b.score) := by
  induction l with
  | nil => simp
  | cons x xs ih =>
    rw [List.pairwise_cons]
    refine ⟨?_, ih (fun r hr => h r (List.mem_cons_of_mem x hr))⟩
    intro b hb
    rw [h x (List.mem_cons_self x xs), h b (List.mem_cons_of_mem x hb)]

theorem fallbackRows_score_zero (db : DocDB) (q : List Char) (topK : Nat) :
    ∀ r ∈ fallbackRows db q topK, r.score = 0 := by
  intro r hr
  have hr' := List.mem_of_mem_take hr
  obtain ⟨cd, -, rfl⟩ := List.mem_map.mp hr'
  rfl

/-! ## C3 -/

/-- C3, counterexample: the claim as stated fails on the code. With the
FTS engine present and answering the ranked query successfully but with
zero rows (`MATCH` holds for nothing here), `search_chunks` does not
return the primary path's (empty) result: it goes on to run the
substring fallback and returns its rows. -/
theorem search_fallback_despite_primary_success :
    primaryRows exDocDb exFts (fun _ _ => false) (fun _ _ => 0)
      (pyStrip ('h' :: 'e' :: 'l' :: 'l' :: 'o' :: [])) 6 = [] ∧
    search_chunks exDocDb exFts (fun _ _ => false) (fun _ _ => 0) true
      ('h' :: 'e' :: 'l' :: 'l' :: 'o' :: []) 6 =
      [⟨('h' :: 'e' :: 'l' :: 'l' :: 'o' :: []), 1, "m.pdf", 0⟩] := by
  decide

/-- C3, amended: for every non-empty (after strip) query, when the
ranked engine is available the primary result is returned exactly when
it is nonempty, and the substring fallback runs exactly when the primary
path raised `OperationalError` or returned zero rows; `search_chunks`
always returns a value (it is a total function in this embedding). -/
theorem search_chunks_fallback_policy (db : DocDB) (fts : FtsIndex)
    (matchQ : List Char → List Char → Bool) (rank : List Char → List Char → Int)
    (query : List Char) (topK : Nat)
    (hq : (pyStrip query).isEmpty = false) :
    ((primaryRows db fts matchQ rank (pyStrip query) topK ≠ [] ∧
        search_chunks db fts matchQ rank true query topK =
          primaryRows db fts matchQ rank (pyStrip query) topK) ∨
      (primaryRows db fts matchQ rank (pyStrip query) topK = [] ∧
        search_chunks db fts matchQ rank true query topK =
          fallbackRows db (pyStrip query) topK)) ∧
    search_chunks db fts matchQ rank false query topK =
      fallbackRows db (pyStrip query) topK := by
  constructor
  · by_cases hp : primaryRows db fts matchQ rank (pyStrip query) topK = []
    · right
      refine ⟨hp, ?_⟩
      simp [search_chunks, hq, hp]
    · left
      refine ⟨hp, ?_⟩
      simp only [search_chunks, hq, Bool.false_eq_true, if_false, if_true]
      rw [if_neg (by simpa [List.isEmpty_iff] using hp)]
  · simp [search_chunks, hq]

/-- C3 witness: the amended theorem applied with the engine unavailable
over the concrete corpus: the fallback substring search is returned. -/
theorem search_chunks_fallback_policy_witness :
    (pyStrip ('h' :: 'e' :: 'l' :: 'l' :: 'o' :: [])).isEmpty = false ∧
    search_chunks exDocDb exFts (fun _ _ => true) (fun _ _ => 0) false
      ('h' :: 'e' :: 'l' :: 'l' :: 'o' :: []) 6 =
      fallbackRows exDocDb (pyStrip ('h' :: 'e' :: 'l' :: 'l' :: 'o' :: [])) 6 :=
  ⟨by decide, (search_chunks_fallback_policy exDocDb exFts (fun _ _ => true)
    (fun _ _ => 0) ('h' :: 'e' :: 'l' :: 'l' :: 'o' :: []) 6 (by decide)).2⟩

/-! ## C4 -/

/-- C4: with the ranked engine available and a non-empty query,
`search_chunks` returns at most `topK` rows, ordered by non-decreasing
rank cost (the primary path sorts by the engine's ascending BM25 cost
and truncates at `topK`; the zero-row fall-through keeps both bounds
since the fallback is capped at `topK` with constant score 0). -/
theorem search_chunks_topk_sorted (db : DocDB) (fts : FtsIndex)
    (matchQ : List Char → List Char → Bool) (rank : List Char → List Char → Int)
    (query : List Char) (topK : Nat)
    (hq : (pyStrip query).isEmpty = false) :
    (search_chunks db fts matchQ rank true query topK).length ≤ topK ∧
    (search_chunks db fts matchQ rank true query topK).Pairwise
      (fun a b => a.score ≤ b.score) := by
  by_cases hp : primaryRows db fts matchQ rank (pyStrip query) topK = []
  · have hres : search_chunks db fts matchQ rank true query topK =
        fallbackRows db (pyStrip query) topK := by
      simp [search_chunks, hq, hp]
    rw [hres]
    constructor
    · exact List.length_take_le _ _
    · exact pairwise_le_of_all_zero _ (fallbackRows_score_zero db (pyStrip query) topK)
  · have hres : search_chunks db fts matchQ rank true query topK =
        primaryRows db fts matchQ rank (pyStrip query) topK := by
      simp only [search_chunks, hq, Bool.false_eq_true, if_false, if_true]
      rw [if_neg (by simpa [List.isEmpty_iff] using hp)]
    rw [hres]
    constructor
    · exact List.length_take_le _ _
    · exact List.Pairwise.sublist (List.take_sublist _ _) (sortByScore_pairwise _)

/-- C4 witness: the concrete corpus, engine available, everything
matching at cost 0. -/
theorem search_chunks_topk_sorted_witness :
    (pyStrip ('h' :: 'e' :: 'l' :: 'l' :: 'o' :: [])).isEmpty = false ∧
    (search_chunks exDocDb exFts (fun _ _ => true) (fun _ _ => 0) true
      ('h' :: 'e' :: 'l' :: 'l' :: 'o' :: []) 6).length ≤ 6 :=
  ⟨by decide, (search_chunks_topk_sorted exDocDb exFts (fun _ _ => true)
    (fun _ _ => 0) ('h' :: 'e' :: 'l' :: 'l' :: 'o' :: []) 6 (by decide)).1⟩

/-! ## C6 -/

/-- C6, counterexample: the claim as stated fails on the code.
`validate_user` returns a bare boolean: the NotFound case (no account
named `bob`) and the BadPassword case (account `alice` exists, supplied
password hashes to something other than the stored hash) produce the
*identical* observable outcome `(False, no message, unchanged table)`,
so the failure cases are not each distinguishable in the result. -/
theorem validate_user_reasons_indistinct :
    exUserDb.find? (fun u => u.username = "bob") = none ∧
    exHash "wrong" ≠ exHash "pw" ∧
    validate_user exHash 100 exUserDb "bob" "pw" =
      validate_user exHash 100 exUserDb "alice" "wrong" ∧
    validate_user exHash 100 exUserDb "bob" "pw" = (false, [], exUserDb) := by
  decide

/-- C6, amended: `validate_user` fails (returns `false` and leaves the
table unchanged) in each of the four cases, in check order: NotFound,
then BadPassword (hash mismatch), then Inactive (correct password,
`active` false, emitting the deactivated message), then Expired (correct
password, active account, expiry set and in the past, emitting the
expired message). Inactive and Expired are distinguishable from each
other and from the first two cases by their distinct emitted messages,
but NotFound and BadPassword are mutually indistinguishable, and the
Expired reason is only reported when the supplied password is correct. -/
theorem validate_user_failure_cases (hash : String → String) (now : Nat)
    (db : List UserRec) (username password : String)
    (hu : username ≠ "") (hp : password ≠ "") :
    (db.find? (fun u => u.username = username) = none →
      validate_user hash now db username password = (false, [], db)) ∧
    (∀ u, db.find? (fun v => v.username = username) = some u →
      (hash password ≠ u.passwordHash →
        validate_user hash now db username password = (false, [], db)) ∧
      (hash password = u.passwordHash → u.active = false →
        validate_user hash now db username password = (false, [inactiveMsg], db)) ∧
      (∀ e, hash password = u.passwordHash → u.active = true →
        u.subscriptionExpires = some e → now > e →
        validate_user hash now db username password = (false, [expiredMsg], db))) ∧
    inactiveMsg ≠ expiredMsg := by
  refine ⟨?_, ?_, by decide⟩
  · intro hfind
    simp [validate_user, hu, hp, hfind]
  · intro u hfind
    refine ⟨?_, ?_, ?_⟩
    · intro hne
      simp [validate_user, hu, hp, hfind, hne]
    · intro heq hact
      simp [validate_user, hu, hp, hfind, heq, hact]
    · intro e heq hact hexp hlt
      simp [validate_user, hu, hp, hfind, heq, hact, hexp, hlt]

/-- C6 witness: the amended theorem's Expired case on the concrete
table (`alice` expires at 1000, validated at 2000 with the correct
password). -/
theorem validate_user_failure_cases_witness :
    validate_user exHash 2000 exUserDb "alice" "pw" = (false, [expiredMsg], exUserDb) :=
  ((validate_user_failure_cases exHash 2000 exUserDb "alice" "pw"
    (by decide) (by decide)).2.1
    ⟨1, "alice", exHash "pw", "a@x.com", 0, none, true, some 1000⟩
    (by decide)).2.2 1000 rfl rfl rfl (by decide)

/-! ## C7 -/

/-- C7: `add_user` by a caller whose session identity is not `admin`
returns `False` and inserts nothing; by the admin it returns `False`
and inserts nothing when the username already exists (UNIQUE-constraint
`IntegrityError`), and otherwise inserts exactly one active record whose
expiry is `now` plus `30 * months` days. -/
theorem add_user_spec (hash : String → String) (now : Nat)
    (sess : Option String) (db : List UserRec)
    (username password email : String) (months : Nat) :
    (sess ≠ some "admin" →
      add_user hash now sess db username password email months = (false, db)) ∧
    (sess = some "admin" →
      (db.find? (fun u => u.username = username)).isSome = true →
      add_user hash now sess db username password email months = (false, db)) ∧
    (sess = some "admin" →
      db.find? (fun u => u.username = username) = none →
      add_user hash now sess db username password email months =
        (true, db ++ [⟨db.length + 1, username, hash password, email, now, none, true,
          some (now + 30 * months * secondsPerDay)⟩])) := by
  refine ⟨?_, ?_, ?_⟩
  · intro hs
    simp [add_user, hs]
  · intro hs hdup
    simp [add_user, hs, hdup]
  · intro hs hnew
    simp [add_user, hs, hnew]

/-- C7 witness: the spec scenario — `createUser("alice","pw","a@x.com",6)`
by the non-admin session `mario` performs no insert. -/
theorem add_user_spec_witness :
    add_user exHash 0 (some "mario") exUserDb "alice" "pw" "a@x.com" 6 =
      (false, exUserDb) :=
  (add_user_spec exHash 0 (some "mario") exUserDb "alice" "pw" "a@x.com" 6).1
    (by decide)

/-! ## C8 -/

/-- All fields of a user row except `lastLogin` agree. -/
def sameExceptLastLogin (u v : UserRec) : Prop :=
  v.id = u.id ∧ v.username = u.username ∧ v.passwordHash = u.passwordHash ∧
  v.email = u.email ∧ v.createdAt = u.createdAt ∧ v.active = u.active ∧
  v.subscriptionExpires = u.subscriptionExpires

theorem forall₂_sameExceptLastLogin_refl (l : List UserRec) :
    List.Forall₂ sameExceptLastLogin l l := by
  induction l with
  | nil => exact List.Forall₂.nil
  | cons x xs ih =>
    exact List.Forall₂.cons ⟨rfl, rfl, rfl, rfl, rfl, rfl, rfl⟩ ih

theorem forall₂_sameExceptLastLogin_touch (l : List UserRec)
    (username : String) (now : Nat) :
    List.Forall₂ sameExceptLastLogin l (touchLastLogin l username now) := by
  induction l with
  | nil => exact List.Forall₂.nil
  | cons x xs ih =>
    refine List.Forall₂.cons ?_ ih
    by_cases hx : x.username = username
    · simp only [touchLastLogin, List.map_cons] at *
      rw [if_pos hx]
      exact ⟨rfl, rfl, rfl, rfl, rfl, rfl, rfl⟩
    · simp only [touchLastLogin, List.map_cons] at *
      rw [if_neg hx]
      exact ⟨rfl, rfl, rfl, rfl, rfl, rfl, rfl⟩

/-- C8: the validation path mutates only `lastLogin`: every row of the
table after any `validate_user` call agrees with the corresponding row
before it on `id`, `username`, `passwordHash`, `email`, `createdAt`,
`active` and `subscriptionExpires`; and when validation fails the table
is unchanged entirely (so `lastLogin` too is only written on success). -/
theorem validate_user_frame (hash : String → String) (now : Nat)
    (db : List UserRec) (username password : String) :
    List.Forall₂ sameExceptLastLogin db
      (validate_user hash now db username password).2.2 ∧
    ((validate_user hash now db username password).1 = false →
      (validate_user hash now db username password).2.2 = db) := by
  unfold validate_user
  repeat' split
  all_goals first
    | exact ⟨forall₂_sameExceptLastLogin_refl db, fun _ => rfl⟩
    | exact ⟨forall₂_sameExceptLastLogin_touch db username now, fun hc => by simp at hc⟩

/-- C8 witness: a successful validation updates only `lastLogin` of the
concrete table. -/
theorem validate_user_frame_witness :
    List.Forall₂ sameExceptLastLogin exUserDb
      (validate_user exHash 100 exUserDb "alice" "pw").2.2 :=
  (validate_user_frame exHash 100 exUserDb "alice" "pw").1

/-! ## C10 -/

/-- C10: `validate_user` with an empty username, or an empty password,
returns failure with no message for every table state, and returns the
table unchanged: the guard runs before the credential store is opened,
so the outcome is the constant `(false, [], db)` independent of the
store's contents. -/
theorem validate_user_empty_inputs (hash : String → String) (now : Nat)
    (db : List UserRec) (username password : String) :
    validate_user hash now db "" password = (false, [], db) ∧
    validate_user hash now db username "" = (false, [], db) := by
  constructor
  · simp [validate_user]
  · simp [validate_user]

/-! ## C9 -/

/-- C9: when any of the four required fields (endpoint, bucket, access
key, secret key) resolves — secrets first, then environment — to an
empty value, no configuration and no client is produced (so the client
is constructed only when every required field is non-empty), and each
Backup Sync operation performs zero object transfers, whatever the
network oracle, local filesystem, or remote contents. -/
theorem r2_unconfigured_noop (hasS3 : Bool) (secrets : Option (String → String))
    (env : String → String) (connect : R2Config → Option Nat)
    (existsLocal : String → Bool) (remoteHas : String → Bool)
    (h : resolveField secrets env "S3_ENDPOINT_URL" = "" ∨
         resolveField secrets env "S3_BUCKET" = "" ∨
         resolveField secrets env "AWS_ACCESS_KEY_ID" = "" ∨
         resolveField secrets env "AWS_SECRET_ACCESS_KEY" = "") :
    get_r2_config hasS3 secrets env = none ∧
    get_r2_client hasS3 secrets env connect = none ∧
    backup_to_r2 hasS3 secrets env connect existsLocal = [] ∧
    restore_from_r2 hasS3 secrets env connect existsLocal remoteHas = [] ∧
    sync_user_data hasS3 secrets env connect existsLocal = [] := by
  have hcfg : get_r2_config hasS3 secrets env = none := by
    rcases h with h | h | h | h <;> rcases hasS3 with _ | _ <;> simp [get_r2_config, h]
  have hcl : get_r2_client hasS3 secrets env connect = none := by
    rcases hasS3 with _ | _ <;> simp [get_r2_client, hcfg]
  refine ⟨hcfg, hcl, ?_, ?_, ?_⟩
  · simp [backup_to_r2, hcl]
  · simp [restore_from_r2, hcl]
  · simp [sync_user_data, hcl]

/-- C9 witness: with no secrets store and an empty environment, even a
willing network oracle and fully populated local/remote state produce
zero transfers. -/
theorem r2_unconfigured_noop_witness :
    resolveField none (fun _ => "") "S3_ENDPOINT_URL" = "" ∧
    backup_to_r2 true none (fun _ => "") (fun _ => some 0) (fun _ => true) = [] ∧
    restore_from_r2 true none (fun _ => "") (fun _ => some 0) (fun _ => false)
      (fun _ => true) = [] ∧
    sync_user_data true none (fun _ => "") (fun _ => some 0) (fun _ => true) = [] :=
  ⟨rfl,
   (r2_unconfigured_noop true none (fun _ => "") (fun _ => some 0) (fun _ => true)
     (fun _ => true) (Or.inl rfl)).2.2.1,
   (r2_unconfigured_noop true none (fun _ => "") (fun _ => some 0) (fun _ => false)
     (fun _ => true) (Or.inl rfl)).2.2.2.1,
   (r2_unconfigured_noop true none (fun _ => "") (fun _ => some 0) (fun _ => true)
     (fun _ => true) (Or.inl rfl)).2.2.2.2⟩

end StreamlitOrigin
